import Mathlib

/-!
Shallow embedding of the boxing simulator core
(`boxing/models/ring_model.py` and `boxing/models/boxers_model.py`).

The SQLite store is modelled as a list of rows; every store operation is a
pure function from the old table to an `Except` of the new table.  The ring
is the plain list of boxers it holds.  The external random source is an
injected real number `r`; `fight` records every external call it performs
(the random draw and each `update_boxer_stats` call) in an event trace.
-/

namespace Boxing

/-- Error taxonomy of the core, one constructor per distinct `raise` site:
`ValueError` for a weight below 125 (`get_weight_class`), `ValueError` for a
bad `result` argument (`update_boxer_stats`), `ValueError` for a missing id
(`NotFound`), `ValueError` for a bad `sort_by`, `TypeError` in `enter_ring`,
`ValueError` for a full ring, `ValueError` for fewer than two boxers in
`fight`, and the tuple-unpacking `ValueError` that `boxer_1, boxer_2 =
self.get_boxers()` would raise on a list of length > 2. -/
inductive BoxErr where
  | invalidAttribute
  | invalidArgument
  | notFound
  | invalidSortBy
  | typeMismatch
  | ringFull
  | insufficientOccupants
  | unpackError
  deriving DecidableEq, Repr

/-- `get_weight_class` from `boxers_model.py`: threshold chain on the weight,
raising for weights below 125. -/
def get_weight_class (weight : Int) : Except BoxErr String :=
  if weight ≥ 203 then .ok "HEAVYWEIGHT"
  else if weight ≥ 166 then .ok "MIDDLEWEIGHT"
  else if weight ≥ 133 then .ok "LIGHTWEIGHT"
  else if weight ≥ 125 then .ok "FEATHERWEIGHT"
  else .error .invalidAttribute

/-- The `Boxer` dataclass: id, name, weight, height, reach, age and the
derived `weight_class` that `__post_init__` fills in. -/
structure Boxer where
  id : Int
  name : String
  weight : Int
  height : Int
  reach : ℚ
  age : Int
  weight_class : String
  deriving DecidableEq, Repr

/-- Constructing a `Boxer` value: `__post_init__` assigns the weight class
from the weight and propagates its `ValueError` for weights below 125. -/
def Boxer.make (id : Int) (name : String) (weight height : Int) (reach : ℚ)
    (age : Int) : Except BoxErr Boxer :=
  match get_weight_class weight with
  | .ok wc => .ok ⟨id, name, weight, height, reach, age, wc⟩
  | .error e => .error e

/-- One row of the `boxers` table:
`{id, name, weight, height, reach, age, fights, wins}`. -/
structure BoxerRow where
  id : Int
  name : String
  weight : Int
  height : Int
  reach : ℚ
  age : Int
  fights : Int
  wins : Int
  deriving DecidableEq, Repr

/-- `update_boxer_stats` from `boxers_model.py`: reject a result other than
`'win'` or `'loss'`, reject an absent id, and otherwise run the SQL
`UPDATE`, which bumps `fights` on every row with the given id and also bumps
`wins` when the result is `'win'`. -/
def update_boxer_stats (boxer_id : Int) (result : String)
    (db : List BoxerRow) : Except BoxErr (List BoxerRow) :=
  if result ≠ "win" ∧ result ≠ "loss" then .error .invalidArgument
  else if db.all (fun row => row.id ≠ boxer_id) then .error .notFound
  else .ok (db.map (fun row =>
    if row.id = boxer_id then
      if result = "win" then
        { row with fights := row.fights + 1, wins := row.wins + 1 }
      else
        { row with fights := row.fights + 1 }
    else row))

/-- `get_fighting_skill` from `ring_model.py`:
`(weight * len(name)) + (reach / 10) + age_modifier`. -/
def get_fighting_skill (boxer : Boxer) : ℚ :=
  let age_modifier : ℚ :=
    if boxer.age < 25 then -1 else if boxer.age > 35 then -2 else 0
  (boxer.weight : ℚ) * (boxer.name.length : ℚ) + boxer.reach / 10 + age_modifier

/-- The logistic normalisation inside `fight`:
`delta = abs(skill_1 - skill_2)`; `1 / (1 + math.e ** (-delta))`. -/
noncomputable def normalized_delta (skill_1 skill_2 : ℚ) : ℝ :=
  let delta : ℚ := |skill_1 - skill_2|
  1 / (1 + Real.exp (-(delta : ℝ)))

/-- Python's rounding to the nearest integer (banker's rounding: a tie goes
to the even integer), applied to an exact rational. -/
def round_half_even (q : ℚ) : ℤ :=
  if q - ⌊q⌋ < 1/2 then ⌊q⌋
  else if q - ⌊q⌋ > 1/2 then ⌊q⌋ + 1
  else if ⌊q⌋ % 2 = 0 then ⌊q⌋ else ⌊q⌋ + 1

/-- `round(x, 1)`: round to one decimal place. -/
def round1 (q : ℚ) : ℚ := (round_half_even (q * 10) : ℚ) / 10

/-- One leaderboard dictionary, as built by the loop in `get_leaderboard`. -/
structure LBEntry where
  id : Int
  name : String
  weight : Int
  height : Int
  reach : ℚ
  age : Int
  weight_class : String
  fights : Int
  wins : Int
  win_pct : ℚ
  deriving DecidableEq, Repr

/-- The body of the row loop in `get_leaderboard`: copy the row's fields,
recompute the weight class (propagating its `ValueError` should the stored
weight be below 125) and convert the `win_pct` column
(`wins * 1.0 / fights`) to a percentage rounded to one decimal. -/
def toLBEntry (row : BoxerRow) : Except BoxErr LBEntry :=
  match get_weight_class row.weight with
  | .error e => .error e
  | .ok wc => .ok ⟨row.id, row.name, row.weight, row.height, row.reach,
      row.age, wc, row.fights, row.wins,
      round1 ((row.wins : ℚ) / (row.fights : ℚ) * 100)⟩

/-- The dictionary `toLBEntry` builds for a row whose stored weight is
valid (at least 125), written as a total function so that theorems can name
the successful output. -/
def lbRow (row : BoxerRow) : LBEntry :=
  ⟨row.id, row.name, row.weight, row.height, row.reach, row.age,
   (get_weight_class row.weight).toOption.getD "", row.fights, row.wins,
   round1 ((row.wins : ℚ) / (row.fights : ℚ) * 100)⟩

/-- `get_leaderboard` from `boxers_model.py`: the SQL query keeps the rows
with `fights > 0` and orders them descending by `win_pct`
(`wins * 1.0 / fights`) or by `wins`; any other `sort_by` raises before the
query runs; the Python loop then turns each row into a dictionary. -/
def get_leaderboard (sort_by : String) (db : List BoxerRow) :
    Except BoxErr (List LBEntry) :=
  let rows := db.filter (fun row => row.fights > 0)
  if sort_by = "win_pct" then
    (rows.mergeSort (fun a b =>
      (b.wins : ℚ) / (b.fights : ℚ) ≤ (a.wins : ℚ) / (a.fights : ℚ))).mapM toLBEntry
  else if sort_by = "wins" then
    (rows.mergeSort (fun a b => b.wins ≤ a.wins)).mapM toLBEntry
  else .error .invalidSortBy

/-- The argument of `enter_ring`: either an actual `Boxer` value or any
other Python value, which the `isinstance` check rejects. -/
inductive RingArg where
  | boxer (b : Boxer)
  | nonBoxer
  deriving DecidableEq, Repr

/-- `RingModel.enter_ring`: `TypeError` unless the argument is a `Boxer`,
`ValueError` when the ring already holds two, otherwise append.  The second
component is the ring after the call (unchanged on either error). -/
def enter_ring (arg : RingArg) (ring : List Boxer) :
    Except BoxErr Unit × List Boxer :=
  match arg with
  | .nonBoxer => (.error .typeMismatch, ring)
  | .boxer b =>
    if ring.length ≥ 2 then (.error .ringFull, ring)
    else (.ok (), ring ++ [b])

/-- `RingModel.clear_ring`: empty the ring (a no-op when already empty). -/
def clear_ring (ring : List Boxer) : List Boxer :=
  if ring.isEmpty then [] else []

/-- `RingModel.get_boxers`: return the occupant list as is. -/
def get_boxers (ring : List Boxer) : List Boxer := ring

/-- One external call made during `fight`: the draw from the random source,
or one `update_boxer_stats(id, result)` call. -/
inductive FightEvent where
  | randomCall (r : ℝ)
  | updateStats (id : Int) (result : String)

/-- What a `fight` call leaves behind: the returned name or the raised
error, the ring afterwards, the table afterwards, and the trace of external
calls it performed (in order, including a call that raised). -/
structure FightResult where
  result : Except BoxErr String
  ring : List Boxer
  db : List BoxerRow
  events : List FightEvent

/-- `RingModel.fight`: raise when fewer than two boxers are present;
otherwise unpack the two occupants, compute both skills, pick the winner by
comparing the random draw `r` with the logistic `normalized_delta`, update
the winner's and then the loser's stats, clear the ring and return the
winner's name.  An error from either store update propagates, leaving the
ring as it was and the table as the failed call left it. -/
noncomputable def fight (ring : List Boxer) (r : ℝ) (db : List BoxerRow) :
    FightResult :=
  if ring.length < 2 then ⟨.error .insufficientOccupants, ring, db, []⟩
  else match ring with
  | [boxer_1, boxer_2] =>
    let skill_1 := get_fighting_skill boxer_1
    let skill_2 := get_fighting_skill boxer_2
    let winner := if r < normalized_delta skill_1 skill_2 then boxer_1 else boxer_2
    let loser := if r < normalized_delta skill_1 skill_2 then boxer_2 else boxer_1
    match update_boxer_stats winner.id "win" db with
    | .error e => ⟨.error e, ring, db,
        [.randomCall r, .updateStats winner.id "win"]⟩
    | .ok db1 =>
      match update_boxer_stats loser.id "loss" db1 with
      | .error e => ⟨.error e, ring, db1,
          [.randomCall r, .updateStats winner.id "win", .updateStats loser.id "loss"]⟩
      | .ok db2 => ⟨.ok winner.name, clear_ring ring, db2,
          [.randomCall r, .updateStats winner.id "win", .updateStats loser.id "loss"]⟩
  | _ => ⟨.error .unpackError, ring, db, []⟩

/-! ### Concrete fixtures used by witnesses and counterexamples -/

/-- The boxer from the spec's end-to-end scenario. -/
def tyson : Boxer := ⟨1, "Mike Tyson", 220, 178, 71, 25, "HEAVYWEIGHT"⟩

/-- The second boxer from the spec's end-to-end scenario. -/
def ali : Boxer := ⟨2, "Muhammad Ali", 215, 191, 78, 30, "HEAVYWEIGHT"⟩

/-- A table row for `tyson` with fresh counters. -/
def tysonRow : BoxerRow := ⟨1, "Mike Tyson", 220, 178, 71, 25, 0, 0⟩

/-- A table row for `ali` with fresh counters. -/
def aliRow : BoxerRow := ⟨2, "Muhammad Ali", 215, 191, 78, 30, 0, 0⟩

/-- Two distinct boxers with identical biometrics, hence identical skill. -/
def twinA : Boxer := ⟨11, "AB", 150, 180, 10, 30, "LIGHTWEIGHT"⟩

/-- Second of the two equal-skill boxers. -/
def twinB : Boxer := ⟨12, "AB", 150, 180, 10, 30, "LIGHTWEIGHT"⟩

/-! ### Helper lemmas -/

/-- `fight` on a two-boxer ring, unfolded to the winner selection and the
two store updates. -/
theorem fight_two (b1 b2 : Boxer) (r : ℝ) (db : List BoxerRow) :
    fight [b1, b2] r db =
      (match update_boxer_stats
          (if r < normalized_delta (get_fighting_skill b1) (get_fighting_skill b2)
           then b1 else b2).id "win" db with
       | .error e => ⟨.error e, [b1, b2], db,
           [.randomCall r,
            .updateStats (if r < normalized_delta (get_fighting_skill b1) (get_fighting_skill b2)
              then b1 else b2).id "win"]⟩
       | .ok db1 =>
         match update_boxer_stats
            (if r < normalized_delta (get_fighting_skill b1) (get_fighting_skill b2)
             then b2 else b1).id "loss" db1 with
         | .error e => ⟨.error e, [b1, b2], db1,
             [.randomCall r,
              .updateStats (if r < normalized_delta (get_fighting_skill b1) (get_fighting_skill b2)
                then b1 else b2).id "win",
              .updateStats (if r < normalized_delta (get_fighting_skill b1) (get_fighting_skill b2)
                then b2 else b1).id "loss"]⟩
         | .ok db2 => ⟨.ok (if r < normalized_delta (get_fighting_skill b1) (get_fighting_skill b2)
               then b1 else b2).name, [], db2,
             [.randomCall r,
              .updateStats (if r < normalized_delta (get_fighting_skill b1) (get_fighting_skill b2)
                then b1 else b2).id "win",
              .updateStats (if r < normalized_delta (get_fighting_skill b1) (get_fighting_skill b2)
                then b2 else b1).id "loss"]⟩) := rfl

/-- When some row carries the requested id, `update_boxer_stats` succeeds
and returns the mapped table. -/
theorem update_boxer_stats_ok (i : Int) (res : String) (db : List BoxerRow)
    (hres : res = "win" ∨ res = "loss") (h : ∃ row ∈ db, row.id = i) :
    update_boxer_stats i res db = .ok (db.map (fun row =>
      if row.id = i then
        if res = "win" then
          { row with fights := row.fights + 1, wins := row.wins + 1 }
        else
          { row with fights := row.fights + 1 }
      else row)) := by
  obtain ⟨row, hmem, hid⟩ := h
  unfold update_boxer_stats
  rw [if_neg, if_neg]
  · simp only [List.all_eq_true, decide_eq_true_eq, not_forall]
    exact ⟨row, hmem, by simpa using hid⟩
  · rcases hres with h | h <;> simp [h]

/-- When no row carries the requested id, `update_boxer_stats` fails. -/
theorem update_boxer_stats_absent (i : Int) (res : String) (db : List BoxerRow)
    (hres : res = "win" ∨ res = "loss") (h : ∀ row ∈ db, row.id ≠ i) :
    update_boxer_stats i res db = .error .notFound := by
  unfold update_boxer_stats
  rw [if_neg, if_pos]
  · simp only [List.all_eq_true, decide_eq_true_eq]
    exact h
  · rcases hres with h | h <;> simp [h]

/-- The winner-update map keeps every id, so an id present before the
update is present after it. -/
theorem exists_id_after_win (db : List BoxerRow) (i j : Int)
    (h : ∃ row ∈ db, row.id = j) :
    ∃ row ∈ db.map (fun row =>
      if row.id = i then
        { row with fights := row.fights + 1, wins := row.wins + 1 }
      else row), row.id = j := by
  obtain ⟨row, hmem, hid⟩ := h
  exact ⟨_, List.mem_map_of_mem _ hmem, by split_ifs <;> exact hid⟩

/-- `update_boxer_stats` with a `'win'` result: `fights` and `wins` both
increase by one on the matching row. -/
theorem update_boxer_stats_win (i : Int) (db : List BoxerRow)
    (h : ∃ row ∈ db, row.id = i) :
    update_boxer_stats i "win" db = .ok (db.map (fun row =>
      if row.id = i then
        { row with fights := row.fights + 1, wins := row.wins + 1 }
      else row)) := by
  rw [update_boxer_stats_ok i "win" db (Or.inl rfl) h]
  simp

/-- `update_boxer_stats` with a `'loss'` result: only `fights` increases on
the matching row. -/
theorem update_boxer_stats_loss (i : Int) (db : List BoxerRow)
    (h : ∃ row ∈ db, row.id = i) :
    update_boxer_stats i "loss" db = .ok (db.map (fun row =>
      if row.id = i then
        { row with fights := row.fights + 1 }
      else row)) := by
  rw [update_boxer_stats_ok i "loss" db (Or.inr rfl) h]
  simp

/-- Likewise, an id absent before the winner update stays absent. -/
theorem forall_id_after_win (db : List BoxerRow) (i j : Int)
    (h : ∀ row ∈ db, row.id ≠ j) :
    ∀ row ∈ db.map (fun row =>
      if row.id = i then
        { row with fights := row.fights + 1, wins := row.wins + 1 }
      else row), row.id ≠ j := by
  intro row hrow
  obtain ⟨row0, hmem0, heq⟩ := List.mem_map.mp hrow
  subst heq
  have := h row0 hmem0
  split_ifs <;> exact this

/-- The logistic value never reaches 1. -/
theorem normalized_delta_lt_one (s1 s2 : ℚ) : normalized_delta s1 s2 < 1 := by
  unfold normalized_delta
  have hx : 0 < Real.exp (-((|s1 - s2| : ℚ) : ℝ)) := Real.exp_pos _
  rw [div_lt_one (by linarith)]
  linarith

/-- The logistic value of a non-negative delta is at least `1/2`. -/
theorem half_le_normalized_delta (s1 s2 : ℚ) : 1/2 ≤ normalized_delta s1 s2 := by
  unfold normalized_delta
  have hd : (0 : ℝ) ≤ ((|s1 - s2| : ℚ) : ℝ) := by positivity
  have hx1 : Real.exp (-((|s1 - s2| : ℚ) : ℝ)) ≤ 1 := by
    calc Real.exp (-((|s1 - s2| : ℚ) : ℝ)) ≤ Real.exp 0 :=
          Real.exp_le_exp.mpr (by linarith)
      _ = 1 := Real.exp_zero
  have hx0 : 0 < Real.exp (-((|s1 - s2| : ℚ) : ℝ)) := Real.exp_pos _
  rw [div_le_div_iff₀ (by norm_num) (by linarith)]
  linarith

/-- The logistic value of a positive delta is strictly above `1/2`. -/
theorem half_lt_normalized_delta (s1 s2 : ℚ) (h : s1 ≠ s2) :
    1/2 < normalized_delta s1 s2 := by
  unfold normalized_delta
  have hd : (0 : ℝ) < ((|s1 - s2| : ℚ) : ℝ) := by
    have : 0 < |s1 - s2| := abs_pos.mpr (sub_ne_zero.mpr h)
    exact_mod_cast this
  have hx1 : Real.exp (-((|s1 - s2| : ℚ) : ℝ)) < 1 := by
    calc Real.exp (-((|s1 - s2| : ℚ) : ℝ)) < Real.exp 0 :=
          Real.exp_lt_exp.mpr (by linarith)
      _ = 1 := Real.exp_zero
  have hx0 : 0 < Real.exp (-((|s1 - s2| : ℚ) : ℝ)) := Real.exp_pos _
  rw [div_lt_div_iff₀ (by norm_num) (by linarith)]
  linarith

/-- With a zero delta the logistic value is exactly `1/2`. -/
theorem normalized_delta_eq_half (s : ℚ) : normalized_delta s s = 1/2 := by
  unfold normalized_delta
  norm_num [Real.exp_zero]

/-- `fight` on a short ring raises before doing anything. -/
theorem fight_short (ring : List Boxer) (r : ℝ) (db : List BoxerRow)
    (h : ring.length < 2) :
    fight ring r db = ⟨.error .insufficientOccupants, ring, db, []⟩ := by
  unfold fight
  rw [if_pos h]

/-- `fight` on a ring of more than two boxers fails unpacking them. -/
theorem fight_long (b1 b2 c : Boxer) (cs : List Boxer) (r : ℝ)
    (db : List BoxerRow) :
    fight (b1 :: b2 :: c :: cs) r db =
      ⟨.error .unpackError, b1 :: b2 :: c :: cs, db, []⟩ := rfl

/-- `fight` leaves the ring alone or clears it. -/
theorem fight_ring_cases (ring : List Boxer) (r : ℝ) (db : List BoxerRow) :
    (fight ring r db).ring = ring ∨ (fight ring r db).ring = [] := by
  match ring with
  | [] => rw [fight_short [] r db (by simp)]; left; rfl
  | [b1] => rw [fight_short [b1] r db (by simp)]; left; rfl
  | b1 :: b2 :: c :: cs => rw [fight_long]; left; rfl
  | [b1, b2] =>
    rw [fight_two]
    generalize (if r < normalized_delta (get_fighting_skill b1) (get_fighting_skill b2)
      then b1 else b2) = w
    generalize (if r < normalized_delta (get_fighting_skill b1) (get_fighting_skill b2)
      then b2 else b1) = l
    cases update_boxer_stats w.id "win" db with
    | error e => left; rfl
    | ok db1 =>
      dsimp only
      cases update_boxer_stats l.id "loss" db1 with
      | error e => left; rfl
      | ok db2 => right; rfl

/-! ### Claims -/

/-- C4: on a ring with fewer than two boxers, `fight` fails with
`insufficientOccupants`, leaves the ring and the table unchanged, and makes
no external call at all (no random draw, no store operation). -/
theorem fight_insufficient (ring : List Boxer) (r : ℝ) (db : List BoxerRow)
    (h : ring.length < 2) :
    fight ring r db = ⟨.error .insufficientOccupants, ring, db, []⟩ := by
  unfold fight
  rw [if_pos h]

/-- Witness for C4 at the empty ring. -/
theorem fight_insufficient_witness :
    fight [] 0 [tysonRow] =
      ⟨.error .insufficientOccupants, [], [tysonRow], []⟩ :=
  fight_insufficient [] 0 [tysonRow] (by decide)

/-- C5: `get_weight_class` sends `w ≥ 203` to HEAVYWEIGHT, `166 ≤ w ≤ 202`
to MIDDLEWEIGHT, `133 ≤ w ≤ 165` to LIGHTWEIGHT, `125 ≤ w ≤ 132` to
FEATHERWEIGHT and fails on `w < 125`; the boundary weights 125, 133, 166,
203 land in the named classes and 124, 132, 165, 202 each land one class
lower. -/
theorem get_weight_class_spec (w : Int) :
    (203 ≤ w → get_weight_class w = .ok "HEAVYWEIGHT") ∧
    (166 ≤ w → w ≤ 202 → get_weight_class w = .ok "MIDDLEWEIGHT") ∧
    (133 ≤ w → w ≤ 165 → get_weight_class w = .ok "LIGHTWEIGHT") ∧
    (125 ≤ w → w ≤ 132 → get_weight_class w = .ok "FEATHERWEIGHT") ∧
    (w < 125 → get_weight_class w = .error .invalidAttribute) ∧
    get_weight_class 125 = .ok "FEATHERWEIGHT" ∧
    get_weight_class 133 = .ok "LIGHTWEIGHT" ∧
    get_weight_class 166 = .ok "MIDDLEWEIGHT" ∧
    get_weight_class 203 = .ok "HEAVYWEIGHT" ∧
    get_weight_class 124 = .error .invalidAttribute ∧
    get_weight_class 132 = .ok "FEATHERWEIGHT" ∧
    get_weight_class 165 = .ok "LIGHTWEIGHT" ∧
    get_weight_class 202 = .ok "MIDDLEWEIGHT" := by
  refine ⟨?_, ?_, ?_, ?_, ?_, by rfl, by rfl, by rfl, by rfl,
    by rfl, by rfl, by rfl, by rfl⟩ <;>
    · intros
      unfold get_weight_class
      split_ifs <;> first | rfl | omega

/-- Witness for C5: one interior weight per class and one failing weight. -/
theorem get_weight_class_spec_witness :
    get_weight_class 210 = .ok "HEAVYWEIGHT" ∧
    get_weight_class 180 = .ok "MIDDLEWEIGHT" ∧
    get_weight_class 150 = .ok "LIGHTWEIGHT" ∧
    get_weight_class 128 = .ok "FEATHERWEIGHT" ∧
    get_weight_class 100 = .error .invalidAttribute :=
  ⟨(get_weight_class_spec 210).1 (by decide),
   (get_weight_class_spec 180).2.1 (by decide) (by decide),
   (get_weight_class_spec 150).2.2.1 (by decide) (by decide),
   (get_weight_class_spec 128).2.2.2.1 (by decide) (by decide),
   (get_weight_class_spec 100).2.2.2.2.1 (by decide)⟩

/-- C6: `get_fighting_skill` computes
`weight * length(name) + reach / 10 + age_modifier` with
`age_modifier = -1` below age 25, `-2` above age 35 and `0` otherwise, and
it is pure: equal snapshots give equal skill. -/
theorem get_fighting_skill_spec (b : Boxer) :
    get_fighting_skill b =
      (b.weight : ℚ) * (b.name.length : ℚ) + b.reach / 10 +
        (if b.age < 25 then -1 else if b.age > 35 then -2 else 0) ∧
    (∀ b2 : Boxer, b2 = b → get_fighting_skill b2 = get_fighting_skill b) :=
  ⟨rfl, fun _ h => by rw [h]⟩

/-- Witness for C6 at the scenario boxer. -/
theorem get_fighting_skill_spec_witness :
    get_fighting_skill tyson =
      (tyson.weight : ℚ) * (tyson.name.length : ℚ) + tyson.reach / 10 +
        (if tyson.age < 25 then -1 else if tyson.age > 35 then -2 else 0) ∧
    get_fighting_skill tyson = get_fighting_skill tyson :=
  ⟨(get_fighting_skill_spec tyson).1,
   (get_fighting_skill_spec tyson).2 tyson rfl⟩

/-- C1: on a ring holding exactly the occupants `b1, b2` (in insertion
order), when both ids are in the table, `fight` picks `b1` as winner iff
`r < normalized_delta` and `b2` otherwise, performs exactly one
`update_boxer_stats(winner, win)` and exactly one
`update_boxer_stats(loser, loss)` (after the single random draw), empties
the ring and returns the winner's name. -/
theorem fight_two_occupants (b1 b2 : Boxer) (r : ℝ) (db : List BoxerRow)
    (h1 : ∃ row ∈ db, row.id = b1.id) (h2 : ∃ row ∈ db, row.id = b2.id) :
    ∃ db2, fight [b1, b2] r db =
      ⟨.ok (if r < normalized_delta (get_fighting_skill b1) (get_fighting_skill b2)
            then b1 else b2).name,
       [], db2,
       [.randomCall r,
        .updateStats (if r < normalized_delta (get_fighting_skill b1) (get_fighting_skill b2)
          then b1 else b2).id "win",
        .updateStats (if r < normalized_delta (get_fighting_skill b1) (get_fighting_skill b2)
          then b2 else b1).id "loss"]⟩ := by
  by_cases hr : r < normalized_delta (get_fighting_skill b1) (get_fighting_skill b2)
  · have hw := update_boxer_stats_win b1.id db h1
    have hl := update_boxer_stats_loss b2.id _ (exists_id_after_win db b1.id b2.id h2)
    have key : fight [b1, b2] r db =
        ⟨.ok b1.name, [],
         (db.map (fun row => if row.id = b1.id then
            { row with fights := row.fights + 1, wins := row.wins + 1 } else row)).map
           (fun row => if row.id = b2.id then
            { row with fights := row.fights + 1 } else row),
         [.randomCall r, .updateStats b1.id "win", .updateStats b2.id "loss"]⟩ := by
      rw [fight_two]
      simp only [if_pos hr, hw, hl]
    simp only [if_pos hr]
    exact ⟨_, key⟩
  · have hw := update_boxer_stats_win b2.id db h2
    have hl := update_boxer_stats_loss b1.id _ (exists_id_after_win db b2.id b1.id h1)
    have key : fight [b1, b2] r db =
        ⟨.ok b2.name, [],
         (db.map (fun row => if row.id = b2.id then
            { row with fights := row.fights + 1, wins := row.wins + 1 } else row)).map
           (fun row => if row.id = b1.id then
            { row with fights := row.fights + 1 } else row),
         [.randomCall r, .updateStats b2.id "win", .updateStats b1.id "loss"]⟩ := by
      rw [fight_two]
      simp only [if_neg hr, hw, hl]
    simp only [if_neg hr]
    exact ⟨_, key⟩

/-- Witness for C1: the scenario boxers with fresh rows and draw 3/10. -/
theorem fight_two_occupants_witness :
    ∃ db2, fight [tyson, ali] (3/10) [tysonRow, aliRow] =
      ⟨.ok (if (3/10 : ℝ) < normalized_delta (get_fighting_skill tyson) (get_fighting_skill ali)
            then tyson else ali).name,
       [], db2,
       [.randomCall (3/10),
        .updateStats (if (3/10 : ℝ) < normalized_delta (get_fighting_skill tyson) (get_fighting_skill ali)
          then tyson else ali).id "win",
        .updateStats (if (3/10 : ℝ) < normalized_delta (get_fighting_skill tyson) (get_fighting_skill ali)
          then ali else tyson).id "loss"]⟩ :=
  fight_two_occupants tyson ali (3/10) [tysonRow, aliRow] (by decide) (by decide)

/-- C2 counterexample: for the distinct equal-skill boxers `twinA`, `twinB`
the value `normalized_delta` equals exactly `1/2`, so it does not lie in the
open interval `(0.5, 1)`. -/
theorem normalized_delta_cex :
    twinA ≠ twinB ∧
    normalized_delta (get_fighting_skill twinA) (get_fighting_skill twinB) = 1/2 ∧
    ¬ (1/2 < normalized_delta (get_fighting_skill twinA) (get_fighting_skill twinB)) := by
  have hsk : get_fighting_skill twinA = get_fighting_skill twinB := rfl
  refine ⟨fun heq => by simpa [twinA, twinB] using congrArg Boxer.id heq, ?_, ?_⟩
  · rw [hsk]
    exact normalized_delta_eq_half _
  · rw [hsk, normalized_delta_eq_half]
    exact lt_irrefl _

/-- C2 (amended): `normalized_delta` always lies in the half-open interval
`[0.5, 1)`; it is strictly above `0.5` exactly when the two skills differ
and equals `0.5` when they coincide; consequently any draw `r < 0.5`
satisfies the first-occupant-wins comparison `r < normalized_delta`
regardless of which boxer has the higher raw skill. -/
theorem normalized_delta_range (b1 b2 : Boxer) (r : ℝ) :
    1/2 ≤ normalized_delta (get_fighting_skill b1) (get_fighting_skill b2) ∧
    normalized_delta (get_fighting_skill b1) (get_fighting_skill b2) < 1 ∧
    (get_fighting_skill b1 ≠ get_fighting_skill b2 →
      1/2 < normalized_delta (get_fighting_skill b1) (get_fighting_skill b2)) ∧
    (get_fighting_skill b1 = get_fighting_skill b2 →
      normalized_delta (get_fighting_skill b1) (get_fighting_skill b2) = 1/2) ∧
    (r < 1/2 → r < normalized_delta (get_fighting_skill b1) (get_fighting_skill b2)) :=
  ⟨half_le_normalized_delta _ _, normalized_delta_lt_one _ _,
   fun h => half_lt_normalized_delta _ _ h,
   fun h => by rw [h]; exact normalized_delta_eq_half _,
   fun h => lt_of_lt_of_le h (half_le_normalized_delta _ _)⟩

/-- Witness for C2's amended claim at the two scenario boxers. -/
theorem normalized_delta_range_witness :
    1/2 ≤ normalized_delta (get_fighting_skill tyson) (get_fighting_skill ali) ∧
    1/2 < normalized_delta (get_fighting_skill tyson) (get_fighting_skill ali) ∧
    ((1 : ℝ)/4) < normalized_delta (get_fighting_skill tyson) (get_fighting_skill ali) :=
  ⟨(normalized_delta_range tyson ali (1/4)).1,
   (normalized_delta_range tyson ali (1/4)).2.2.1 (by
     norm_num [get_fighting_skill, tyson, ali, show "Mike Tyson".length = 10 from rfl,
       show "Muhammad Ali".length = 12 from rfl]),
   (normalized_delta_range tyson ali (1/4)).2.2.2.2 (by norm_num)⟩

/-- C3: on a full ring, any error leaves the ring with both boxers still in
it; in particular with a draw below 0.5 (so occupant 1 wins), occupant 1's
id present and occupant 2's id absent, the winner update is committed, the
loser update then fails with `notFound` and the ring is left uncleared. -/
theorem fight_partial_failure (b1 b2 : Boxer) (r : ℝ) (db : List BoxerRow) :
    (∀ e, (fight [b1, b2] r db).result = .error e →
      (fight [b1, b2] r db).ring = [b1, b2]) ∧
    (r < 1/2 → (∃ row ∈ db, row.id = b1.id) → (∀ row ∈ db, row.id ≠ b2.id) →
      fight [b1, b2] r db =
        ⟨.error .notFound, [b1, b2],
         db.map (fun row => if row.id = b1.id then
           { row with fights := row.fights + 1, wins := row.wins + 1 } else row),
         [.randomCall r, .updateStats b1.id "win", .updateStats b2.id "loss"]⟩) := by
  constructor
  · intro e he
    rw [fight_two] at he ⊢
    generalize (if r < normalized_delta (get_fighting_skill b1) (get_fighting_skill b2)
      then b1 else b2) = w at he ⊢
    generalize (if r < normalized_delta (get_fighting_skill b1) (get_fighting_skill b2)
      then b2 else b1) = l at he ⊢
    cases hw : update_boxer_stats w.id "win" db with
    | error e1 => simp only [hw]
    | ok db1 =>
      simp only [hw] at he ⊢
      cases hl : update_boxer_stats l.id "loss" db1 with
      | error e1 => simp only [hl]
      | ok db2 =>
        simp only [hl] at he
        exact absurd he (by simp)
  · intro hrh h1 h2
    have hr : r < normalized_delta (get_fighting_skill b1) (get_fighting_skill b2) :=
      lt_of_lt_of_le hrh (half_le_normalized_delta _ _)
    have hw := update_boxer_stats_win b1.id db h1
    have h2' := forall_id_after_win db b1.id b2.id h2
    have hl := update_boxer_stats_absent b2.id "loss" _ (Or.inr rfl) h2'
    rw [fight_two]
    simp only [if_pos hr, hw, hl]

/-- Witness for C3: occupant 2's row is missing from the table. -/
theorem fight_partial_failure_witness :
    fight [tyson, ali] (3/10) [tysonRow] =
      ⟨.error .notFound, [tyson, ali],
       [tysonRow].map (fun row => if row.id = tyson.id then
         { row with fights := row.fights + 1, wins := row.wins + 1 } else row),
       [.randomCall (3/10), .updateStats tyson.id "win", .updateStats ali.id "loss"]⟩ :=
  (fight_partial_failure tyson ali (3/10) [tysonRow]).2 (by norm_num)
    (by decide) (by decide)

/-- C9: every ring operation keeps the occupant count at most 2; entering a
boxer into a full ring fails with `ringFull` without touching the list, and
entering a non-`Boxer` argument fails with `typeMismatch`, also without
touching the list. -/
theorem ring_capacity_spec (arg : RingArg) (b : Boxer) (ring : List Boxer)
    (r : ℝ) (db : List BoxerRow) (h : ring.length ≤ 2) :
    (enter_ring arg ring).2.length ≤ 2 ∧
    (clear_ring ring).length ≤ 2 ∧
    (get_boxers ring).length ≤ 2 ∧
    (fight ring r db).ring.length ≤ 2 ∧
    (ring.length = 2 → enter_ring (.boxer b) ring = (.error .ringFull, ring)) ∧
    enter_ring .nonBoxer ring = (.error .typeMismatch, ring) := by
  refine ⟨?_, ?_, h, ?_, ?_, rfl⟩
  · cases arg with
    | nonBoxer => exact h
    | boxer b2 =>
      by_cases h2 : ring.length ≥ 2
      · simp only [enter_ring, if_pos h2]
        exact h
      · simp only [enter_ring, if_neg h2, List.length_append, List.length_cons,
          List.length_nil]
        omega
  · unfold clear_ring
    split <;> simp
  · rcases fight_ring_cases ring r db with hc | hc <;> rw [hc] <;> simp [h]
  · intro h2
    simp only [enter_ring, if_pos (by omega : ring.length ≥ 2)]

/-- Witness for C9 at a full ring. -/
theorem ring_capacity_spec_witness :
    (enter_ring (.boxer tyson) [tyson, ali]).2.length ≤ 2 ∧
    enter_ring (.boxer tyson) [tyson, ali] = (.error .ringFull, [tyson, ali]) ∧
    enter_ring .nonBoxer [tyson, ali] = (.error .typeMismatch, [tyson, ali]) :=
  ⟨(ring_capacity_spec (.boxer tyson) tyson [tyson, ali] 0 [] (by decide)).1,
   (ring_capacity_spec (.boxer tyson) tyson [tyson, ali] 0 [] (by decide)).2.2.2.2.1 rfl,
   (ring_capacity_spec (.boxer tyson) tyson [tyson, ali] 0 [] (by decide)).2.2.2.2.2⟩

/-- C10: `enter_ring` never checks for duplicates, so the same boxer can
enter an empty ring twice; `fight` then pits the boxer against itself,
updates its stats once as winner and once as loser (fights +2, wins +1) and
returns its own name. -/
theorem double_enter_self_fight (b : Boxer) (r : ℝ) (db : List BoxerRow)
    (h : ∃ row ∈ db, row.id = b.id) :
    enter_ring (.boxer b) [] = (.ok (), [b]) ∧
    enter_ring (.boxer b) [b] = (.ok (), [b, b]) ∧
    fight [b, b] r db =
      ⟨.ok b.name, [],
       db.map (fun row => if row.id = b.id then
         { row with fights := row.fights + 2, wins := row.wins + 1 } else row),
       [.randomCall r, .updateStats b.id "win", .updateStats b.id "loss"]⟩ := by
  refine ⟨rfl, rfl, ?_⟩
  have hw := update_boxer_stats_win b.id db h
  have hl := update_boxer_stats_loss b.id _ (exists_id_after_win db b.id b.id h)
  rw [fight_two]
  simp only [ite_self, hw, hl]
  simp only [FightResult.mk.injEq, List.map_map, true_and, and_true]
  apply List.map_congr_left
  intro row _
  by_cases hid : row.id = b.id <;> simp [hid]
  omega

/-- C7: `update_boxer_stats` rejects an outcome other than win/loss before
touching the table, rejects an absent id, and otherwise adds exactly 1 to
the matching row's `fights` and adds 1 to its `wins` iff the outcome is a
win, leaving every other field and every other row unchanged. -/
theorem update_boxer_stats_spec (i : Int) (res : String) (db : List BoxerRow) :
    (res ≠ "win" → res ≠ "loss" →
      update_boxer_stats i res db = .error .invalidArgument) ∧
    ((res = "win" ∨ res = "loss") → (∀ row ∈ db, row.id ≠ i) →
      update_boxer_stats i res db = .error .notFound) ∧
    ((res = "win" ∨ res = "loss") → (∃ row ∈ db, row.id = i) →
      update_boxer_stats i res db = .ok (db.map (fun row =>
        if row.id = i then
          { row with fights := row.fights + 1,
                     wins := row.wins + (if res = "win" then 1 else 0) }
        else row))) := by
  refine ⟨?_, ?_, ?_⟩
  · intro h1 h2
    unfold update_boxer_stats
    rw [if_pos ⟨h1, h2⟩]
  · intro hres habs
    exact update_boxer_stats_absent i res db hres habs
  · intro hres hmem
    rcases hres with h | h <;> subst h
    · rw [update_boxer_stats_win i db hmem]
      simp only [Except.ok.injEq]
      apply List.map_congr_left
      intro row _
      by_cases hid : row.id = i <;> simp [hid]
    · rw [update_boxer_stats_loss i db hmem]
      simp only [Except.ok.injEq]
      apply List.map_congr_left
      intro row _
      by_cases hid : row.id = i <;> simp [hid]

/-- Witness for C7: a bad outcome, a missing id and a successful win. -/
theorem update_boxer_stats_spec_witness :
    update_boxer_stats 1 "draw" [tysonRow] = .error .invalidArgument ∧
    update_boxer_stats 5 "win" [tysonRow] = .error .notFound ∧
    update_boxer_stats 1 "win" [tysonRow] = .ok ([tysonRow].map (fun row =>
      if row.id = 1 then
        { row with fights := row.fights + 1,
                   wins := row.wins + (if "win" = "win" then 1 else 0) }
      else row)) :=
  ⟨(update_boxer_stats_spec 1 "draw" [tysonRow]).1 (by decide) (by decide),
   (update_boxer_stats_spec 5 "win" [tysonRow]).2.1 (Or.inl rfl) (by decide),
   (update_boxer_stats_spec 1 "win" [tysonRow]).2.2 (Or.inl rfl) (by decide)⟩

/-- `get_weight_class` succeeds on every valid weight. -/
theorem get_weight_class_ok (w : Int) (h : 125 ≤ w) :
    ∃ s, get_weight_class w = .ok s := by
  unfold get_weight_class
  split_ifs with h1 h2 h3
  · exact ⟨_, rfl⟩
  · exact ⟨_, rfl⟩
  · exact ⟨_, rfl⟩
  · exact ⟨_, rfl⟩

/-- On a valid stored weight the loop body builds exactly `lbRow`. -/
theorem toLBEntry_ok (row : BoxerRow) (h : 125 ≤ row.weight) :
    toLBEntry row = .ok (lbRow row) := by
  obtain ⟨s, hs⟩ := get_weight_class_ok row.weight h
  unfold toLBEntry lbRow
  rw [hs]
  simp [Except.toOption]

/-- The loop over rows with valid weights succeeds and maps `lbRow`. -/
theorem mapM_toLBEntry (l : List BoxerRow)
    (h : ∀ row ∈ l, 125 ≤ row.weight) :
    l.mapM toLBEntry = .ok (l.map lbRow) := by
  induction l with
  | nil => rfl
  | cons a t ih =>
    rw [List.mapM_cons, toLBEntry_ok a (h a (by simp)),
      ih (fun row hr => h row (by simp [hr]))]
    rfl

/-- Banker's rounding never overshoots the next integer. -/
theorem round_half_even_le (q : ℚ) : round_half_even q ≤ ⌊q⌋ + 1 := by
  unfold round_half_even
  split_ifs <;> omega

/-- Banker's rounding never undershoots the floor. -/
theorem le_round_half_even (q : ℚ) : ⌊q⌋ ≤ round_half_even q := by
  unfold round_half_even
  split_ifs <;> omega

/-- Banker's rounding is monotone. -/
theorem round_half_even_mono {a b : ℚ} (h : a ≤ b) :
    round_half_even a ≤ round_half_even b := by
  have hf : ⌊a⌋ ≤ ⌊b⌋ := Int.floor_mono h
  rcases lt_or_eq_of_le hf with hlt | heq
  · have ha := round_half_even_le a
    have hb := le_round_half_even b
    omega
  · unfold round_half_even
    rw [← heq]
    have hfr : a - (⌊a⌋ : ℚ) ≤ b - (⌊a⌋ : ℚ) := by linarith
    split_ifs <;> first | omega | linarith

/-- Rounding to one decimal place is monotone. -/
theorem round1_mono {a b : ℚ} (h : a ≤ b) : round1 a ≤ round1 b := by
  unfold round1
  have h10 := round_half_even_mono (by linarith : a * 10 ≤ b * 10)
  have hc : ((round_half_even (a * 10) : ℚ)) ≤ ((round_half_even (b * 10) : ℚ)) := by
    exact_mod_cast h10
  linarith

/-- `get_leaderboard` at the literal key `"wins"`, unfolded. -/
theorem get_leaderboard_wins_eq (db : List BoxerRow) :
    get_leaderboard "wins" db =
      ((db.filter (fun row => row.fights > 0)).mergeSort
        (fun a b => b.wins ≤ a.wins)).mapM toLBEntry := rfl

/-- `get_leaderboard` at the literal key `"win_pct"`, unfolded. -/
theorem get_leaderboard_win_pct_eq (db : List BoxerRow) :
    get_leaderboard "win_pct" db =
      ((db.filter (fun row => row.fights > 0)).mergeSort
        (fun a b =>
          (b.wins : ℚ) / (b.fights : ℚ) ≤ (a.wins : ℚ) / (a.fights : ℚ))).mapM
        toLBEntry := rfl

/-- C8: `get_leaderboard` rejects any `sort_by` other than wins/win_pct;
otherwise (for a table of valid weights) it returns exactly the rows with
`fights > 0`, each annotated via `lbRow` (whose `win_pct` is
`round1 (wins / fights * 100)`), sorted descending by the requested
field. -/
theorem get_leaderboard_spec (sort_by : String) (db : List BoxerRow)
    (hwt : ∀ row ∈ db, 125 ≤ row.weight) :
    (sort_by ≠ "wins" → sort_by ≠ "win_pct" →
      get_leaderboard sort_by db = .error .invalidSortBy) ∧
    (∃ out, get_leaderboard "wins" db = .ok out ∧
      out.Perm ((db.filter (fun row => row.fights > 0)).map lbRow) ∧
      out.Pairwise (fun x y => y.wins ≤ x.wins)) ∧
    (∃ out, get_leaderboard "win_pct" db = .ok out ∧
      out.Perm ((db.filter (fun row => row.fights > 0)).map lbRow) ∧
      out.Pairwise (fun x y => y.win_pct ≤ x.win_pct)) := by
  have hvalid : ∀ (le : BoxerRow → BoxerRow → Bool)
      (row : BoxerRow),
      row ∈ (db.filter (fun row => row.fights > 0)).mergeSort le →
      125 ≤ row.weight := by
    intro le row hr
    exact hwt row (List.mem_filter.mp (List.mem_mergeSort.mp hr)).1
  refine ⟨?_, ?_, ?_⟩
  · intro h1 h2
    unfold get_leaderboard
    rw [if_neg h2, if_neg h1]
  · refine ⟨((db.filter (fun row => row.fights > 0)).mergeSort
      (fun a b => b.wins ≤ a.wins)).map lbRow, ?_, ?_, ?_⟩
    · rw [get_leaderboard_wins_eq]
      exact mapM_toLBEntry _ (hvalid _)
    · exact (List.mergeSort_perm _ _).map lbRow
    · refine List.Pairwise.map lbRow (fun x y hxy => ?_)
        (List.sorted_mergeSort
          (fun x y z hxy hyz => ?_) (fun x y => ?_) _)
      · exact of_decide_eq_true hxy
      · simp only [decide_eq_true_eq] at hxy hyz ⊢
        omega
      · simp only [Bool.or_eq_true, decide_eq_true_eq]
        omega
  · refine ⟨((db.filter (fun row => row.fights > 0)).mergeSort
      (fun a b => (b.wins : ℚ) / (b.fights : ℚ) ≤ (a.wins : ℚ) / (a.fights : ℚ))).map
        lbRow, ?_, ?_, ?_⟩
    · rw [get_leaderboard_win_pct_eq]
      exact mapM_toLBEntry _ (hvalid _)
    · exact (List.mergeSort_perm _ _).map lbRow
    · refine List.Pairwise.map lbRow (fun x y hxy => ?_)
        (List.sorted_mergeSort
          (fun x y z hxy hyz => ?_) (fun x y => ?_) _)
      · have hq : (y.wins : ℚ) / (y.fights : ℚ) ≤ (x.wins : ℚ) / (x.fights : ℚ) :=
          of_decide_eq_true hxy
        show round1 ((y.wins : ℚ) / (y.fights : ℚ) * 100) ≤
          round1 ((x.wins : ℚ) / (x.fights : ℚ) * 100)
        exact round1_mono (by linarith)
      · simp only [decide_eq_true_eq] at hxy hyz ⊢
        linarith
      · simp only [Bool.or_eq_true, decide_eq_true_eq]
        exact le_total _ _

/-- Witness for C8: a two-row table sorted by wins, plus a rejected key. -/
theorem get_leaderboard_spec_witness :
    get_leaderboard "bogus" [tysonRow, aliRow] = .error .invalidSortBy ∧
    (∃ out, get_leaderboard "wins" [tysonRow, aliRow] = .ok out ∧
      out.Perm (([tysonRow, aliRow].filter (fun row => row.fights > 0)).map lbRow) ∧
      out.Pairwise (fun x y => y.wins ≤ x.wins)) :=
  ⟨(get_leaderboard_spec "bogus" [tysonRow, aliRow] (by decide)).1
      (by decide) (by decide),
   (get_leaderboard_spec "wins" [tysonRow, aliRow] (by decide)).2.1⟩

/-- Witness for C10 with the scenario boxer entering twice. -/
theorem double_enter_self_fight_witness :
    fight [tyson, tyson] 0 [tysonRow] =
      ⟨.ok tyson.name, [],
       [tysonRow].map (fun row => if row.id = tyson.id then
         { row with fights := row.fights + 2, wins := row.wins + 1 } else row),
       [.randomCall 0, .updateStats tyson.id "win", .updateStats tyson.id "loss"]⟩ :=
  (double_enter_self_fight tyson 0 [tysonRow] (by decide)).2.2

end Boxing
